import Mathlib

/-!
Verification development for the yas6502 two-pass 6502 assembler.

The definitions below are a shallow embedding of the assembler's semantic
engine: the symbol table (symtab.cpp), the expression evaluator (ast.cpp),
the opcode table view used by the passes (opcodes.h), pass 1 sizing
(pass1.cpp), pass 2 emission (pass2.cpp), the shared pass plumbing
(pass.cpp) and the driver gating (assembler.cpp).  C++ ints are modelled
as unbounded Int with explicit masking where the code masks; exceptions
are modelled with Except / explicit error components; the mutable pass
state is threaded explicitly.
-/

set_option maxHeartbeats 1000000

namespace Yas6502

/-- A diagnostic message.  The source type carries (warning, line, text);
only the severity is semantically relevant here, so the line number and
text are omitted. -/
structure Message where
  warning : Bool
deriving Repr, DecidableEq

/-- The error conditions thrown by the semantic engine (except.h / the
throw sites in pass.cpp, pass1.cpp, pass2.cpp, symtab.cpp, ast.cpp).
`operandDoesNotFitInByte` is the only condition thrown with
ErrorType::Warning (Pass2::checkByte). -/
inductive AsmError where
  | unknownOpcode
  | symbolRedefinition
  | divideByZero
  | undefinedSymbols
  | orgChanged
  | noSuchAddressingMode
  | noAbsoluteIndexedMode
  | relativeBranchOutOfRange
  | addressNotZeroPage
  | addressOverflow
  | locationRange
  | operandDoesNotFitInByte
deriving Repr, DecidableEq

/-- Severity of a thrown error: Pass2::checkByte throws with
ErrorType::Warning, every other throw is an error. -/
def AsmError.isWarning : AsmError → Bool
  | .operandDoesNotFitInByte => true
  | _ => false

/-- Models ::toupper on the ASCII letters, as used by utility.cpp toUpper. -/
def upc (c : Char) : Char :=
  if 'a' ≤ c ∧ c ≤ 'z' then Char.ofNat (c.toNat - 32) else c

/-- utility.cpp toUpper: upper-case every character of a string.
Written over the character list so that it reduces definitionally. -/
def toUpper (s : String) : String :=
  ⟨s.data.map upc⟩

/-- symtab.h Symbol: default-constructed as (defined=false, value=1). -/
structure Symbol where
  defined : Bool := false
  value : Int := 1
deriving Repr, DecidableEq

/-- The symbol table's backing map, keyed by upper-cased name.  std::map
is modelled as an association list with unique keys. -/
abbrev SymbolTable := List (String × Symbol)

/-- Find an entry by exact (already upper-cased) key. -/
def tabFind : SymbolTable → String → Option Symbol
  | [], _ => none
  | (k, s) :: rest, u => if k = u then some s else tabFind rest u

/-- Insert or replace the entry for an exact key, keeping the rest. -/
def tabStore : SymbolTable → String → Symbol → SymbolTable
  | [], u, s => [(u, s)]
  | (k, s₀) :: rest, u, s =>
      if k = u then (u, s) :: rest else (k, s₀) :: tabStore rest u s

/-- Reading symbols_[uname]: the stored entry, or a default-constructed
Symbol (defined=false, value=1) when absent. -/
def SymbolTable.found (tab : SymbolTable) (uname : String) : Symbol :=
  match tabFind tab uname with
  | some s => s
  | none => {}

/-- SymbolTable::lookup (symtab.cpp, current revision): upper-case the
name; a missing entry yields a default-constructed Symbol
(defined=false, value=1). -/
def SymbolTable.lookup (tab : SymbolTable) (name : String) : Symbol :=
  tab.found (toUpper name)

/-- SymbolTable::setValue (symtab.cpp, current revision): upper-case the
name; read the existing entry (default-constructed if absent, matching
operator[]); if it is defined with a different value, throw
SymbolRedefinition; otherwise store (defined=true, value). -/
def SymbolTable.setValue (tab : SymbolTable) (name : String) (value : Int) :
    Except AsmError SymbolTable :=
  let oldValue := tab.found (toUpper name)
  if oldValue.defined = true ∧ oldValue.value ≠ value then
    .error .symbolRedefinition
  else
    .ok (tabStore tab (toUpper name) { defined := true, value := value })

/-- Binary operators of the expression language (ast.h Operator, binary
part of the revision embedded here). -/
inductive Operator where
  | add
  | sub
  | mul
  | div
deriving Repr, DecidableEq

/-- Unary operators (ast.h Operator::Neg). -/
inductive UOperator where
  | neg
deriving Repr, DecidableEq

/-- Expression trees (ast.h): constants, symbols, the location counter
token, unary and binary operations. -/
inductive Expr where
  | const (value : Int)
  | sym (name : String)
  | location
  | unary (op : UOperator) (operand : Expr)
  | binary (op : Operator) (left right : Expr)
deriving Repr, DecidableEq

/-- ast.cpp ExprResult: a value plus the set of undefined symbols met
while evaluating.  The result is defined iff the set is empty; the
undefined constructor stores the placeholder value 1. -/
structure ExprResult where
  value : Int := 1
  undefinedSymbols : Finset String := ∅
deriving DecidableEq

/-- ExprResult::defined — no undefined symbols were encountered. -/
def ExprResult.defined (er : ExprResult) : Bool :=
  er.undefinedSymbols = ∅

/-- Expression evaluation (ast.cpp eval overloads).  The context is the
symbol table and the current location counter.  Undefined symbols
produce an undefined result (placeholder value 1); a binary operation
first evaluates both sides, unions the undefined sets if either side is
undefined, and only otherwise applies the operator; division by zero on
a fully defined division throws DivideByZero.  Division is C++ int
division (truncation toward zero). -/
def evalE : Expr → SymbolTable → Int → Except AsmError ExprResult
  | .const v, _, _ => .ok { value := v, undefinedSymbols := ∅ }
  | .sym name, tab, _ =>
      let s := tab.lookup name
      if s.defined = true then .ok { value := s.value, undefinedSymbols := ∅ }
      else .ok { value := 1, undefinedSymbols := {name} }
  | .location, _, lc => .ok { value := lc, undefinedSymbols := ∅ }
  | .unary .neg e, tab, lc =>
      match evalE e tab lc with
      | .error err => .error err
      | .ok op =>
          if op.defined = true then .ok { value := -op.value, undefinedSymbols := ∅ }
          else .ok op
  | .binary op l r, tab, lc =>
      match evalE l tab lc with
      | .error err => .error err
      | .ok left =>
        match evalE r tab lc with
        | .error err => .error err
        | .ok right =>
          if left.defined = false ∨ right.defined = false then
            .ok { value := 1,
                  undefinedSymbols := left.undefinedSymbols ∪ right.undefinedSymbols }
          else
            match op with
            | .add => .ok { value := left.value + right.value, undefinedSymbols := ∅ }
            | .sub => .ok { value := left.value - right.value, undefinedSymbols := ∅ }
            | .mul => .ok { value := left.value * right.value, undefinedSymbols := ∅ }
            | .div =>
                if right.value = 0 then .error .divideByZero
                else .ok { value := Int.tdiv left.value right.value, undefinedSymbols := ∅ }

/-- opcodes.h struct Opcode: one int per opcode-mode, −1 meaning the
instruction lacks that mode.  The timing and undocumented/unstable
flags are omitted: the embedded passes never read them.  The newer
Instruction::hasEncoding(mode) API used by pass1.cpp corresponds to a
field being ≠ −1. -/
structure Opcode where
  accumulator : Int := -1
  immediate : Int := -1
  implied : Int := -1
  zeroPage : Int := -1
  zeroPageX : Int := -1
  zeroPageY : Int := -1
  absolute : Int := -1
  absoluteX : Int := -1
  absoluteY : Int := -1
  indirect : Int := -1
  indirectX : Int := -1
  indirectY : Int := -1
  relative : Int := -1
deriving Repr, DecidableEq

/-- The opcode table, keyed by upper-cased mnemonic. -/
abbrev OpcodeMap := List (String × Opcode)

/-- Find a table entry by exact key. -/
def opFind : OpcodeMap → String → Option Opcode
  | [], _ => none
  | (k, o) :: rest, u => if k = u then some o else opFind rest u

/-- Pass::findInstruction (pass.cpp): case-insensitive opcode lookup,
throwing UnknownOpcode when the mnemonic is absent. -/
def findInstruction (map : OpcodeMap) (op : String) : Except AsmError Opcode :=
  match opFind map (toUpper op) with
  | some instr => .ok instr
  | none => .error .unknownOpcode

/-- ast.h AddrMode: the parser-level addressing-mode tags. -/
inductive AddrMode where
  | implied
  | immediate
  | accumulator
  | address
  | addressX
  | addressY
  | indirect
  | indirectX
  | indirectY
deriving Repr, DecidableEq

/-- ast.h DataSize. -/
inductive DataSize where
  | byte
  | word
deriving Repr, DecidableEq

/-- ast.h Address: mode tag plus optional operand expression.  `paren`
models addressExpr()->parenthesized() for the top-level expression. -/
structure Address where
  mode : AddrMode
  expr : Option Expr := none
  paren : Bool := false
deriving Repr, DecidableEq

/-- ast.h DataElement: optional REP count plus the value expression. -/
structure DataElem where
  count : Option Expr := none
  value : Expr
deriving Repr, DecidableEq

/-- The statement kinds the claims concern (ast.h node classes).  The
space and string directives are not needed by any claim and are
omitted. -/
inductive StmtKind where
  | noop
  | org (locExpr : Expr)
  | set (symbol : String) (value : Expr)
  | instr (opcode : String) (address : Address)
  | data (size : DataSize) (elems : List DataElem)
deriving Repr, DecidableEq

/-- A statement: an optional label (empty string = none, as in the
source) plus the kind-specific payload. -/
structure Stmt where
  label : String := ""
  kind : StmtKind
deriving Repr, DecidableEq

/-- The per-node computed fields (ast.h Node / InstructionNode /
OrgNode): `loc` set by the pass-1 loop, `operandSize` set by
InstructionNode::pass1 (and possibly downgraded by pass 2),
`computedLoc` set by OrgNode::pass1, `nextLoc` set by the pass-2 loop
on success.  `p2value` is instrumentation only: it records the operand
value the pass-2 code computes into its local variable `value`, so that
theorems can speak about the re-evaluated operand. -/
structure Ann where
  loc : Int := 0
  operandSize : DataSize := .byte
  computedLoc : Int := 0
  nextLoc : Option Int := none
  p2value : Option Int := none
deriving Repr, DecidableEq

/-- The mutable state of a pass (class Pass plus Pass2's image): the
shared symbol table, the location counter, the diagnostics pushed so
far, and the memory image (used by pass 2 only; −1 = unwritten). -/
structure PassState where
  symtab : SymbolTable := []
  loc : Int := 0
  messages : List Message := []
  image : Int → Int := fun _ => -1

/-- Pass::pushMessage: append a diagnostic. -/
def pushMessage (st : PassState) (warning : Bool) : PassState :=
  { st with messages := st.messages ++ [{ warning := warning }] }

/-- The error counter maintained by Pass::pushMessage: the number of
non-warning messages. -/
def errorCount (st : PassState) : Nat :=
  (st.messages.filter fun m => m.warning = false).length

/-- Pass::setLoc: the location counter may be set anywhere in
[0, 0x10000] (one past the end of memory); anything else throws. -/
def setLoc (st : PassState) (l : Int) : Except AsmError PassState :=
  if l > 0xFFFF + 1 then .error .locationRange
  else if l < 0 then .error .locationRange
  else .ok { st with loc := l }

/-- Pass2::emit: if the location counter is < 0 or ≥ 0xFFFF the write
throws AddressOverflow; otherwise byte & 0xFF is stored at image[loc]
and the location counter is incremented.  The conversion of the int
argument to unsigned followed by & 0xFF is byte mod 256. -/
def emit (st : PassState) (byte : Int) : Except AsmError PassState :=
  if st.loc < 0 ∨ 0xFFFF ≤ st.loc then .error .addressOverflow
  else
    .ok { st with
          image := fun a => if a = st.loc then byte % 256 else st.image a,
          loc := st.loc + 1 }

/-- Pass2::evalCheckDefined: evaluate and throw if any symbol is
undefined. -/
def evalCheckDefined (st : PassState) (e : Expr) : Except AsmError Int :=
  match evalE e st.symtab st.loc with
  | .error err => .error err
  | .ok er => if er.defined = true then .ok er.value else .error .undefinedSymbols

/-- Pass2::checkByte: warn when a value fits neither a signed nor an
unsigned byte. -/
def checkByte (value : Int) : Except AsmError Unit :=
  if -128 ≤ value ∧ value ≤ 255 then .ok ()
  else .error .operandDoesNotFitInByte

/-- C++ value >> 8 on int: arithmetic shift right, i.e. floor division
by 256. -/
def shiftR8 (v : Int) : Int :=
  Int.fdiv v 256

/-- Node::pass1 (pass1.cpp): when the statement carries a label, define
it at the current location counter. -/
def pass1Label (s : Stmt) (st : PassState) : Except AsmError PassState :=
  if s.label = "" then .ok st
  else
    match st.symtab.setValue s.label st.loc with
    | .error err => .error err
    | .ok tab => .ok { st with symtab := tab }

/-- The instruction-size switch of InstructionNode::pass1 (pass1.cpp):
given the table entry, the addressing-mode tag and the result of
evaluating the operand expression (consulted only in the zero-page
branches, exactly as the source evaluates it only there), return the
total instruction size in bytes.  For Address mode a Relative encoding
forces a 2-byte instruction; otherwise, and for AddressX/AddressY, the
size drops from 3 to 2 exactly when the corresponding zero-page
encoding exists and the operand is fully defined with a value in
[0, 0xFF]. -/
def instrSize (instr : Opcode) (mode : AddrMode)
    (er? : Except AsmError ExprResult) : Except AsmError Int :=
  match mode with
  | .implied => .ok 1
  | .accumulator => .ok 1
  | .immediate => .ok 2
  | .address =>
      if instr.relative ≠ -1 then .ok 2
      else if instr.zeroPage ≠ -1 then
        match er? with
        | .error err => .error err
        | .ok er =>
            if er.defined = true ∧ 0 ≤ er.value ∧ er.value ≤ 0xFF then .ok 2
            else .ok 3
      else .ok 3
  | .addressX =>
      if instr.zeroPageX ≠ -1 then
        match er? with
        | .error err => .error err
        | .ok er =>
            if er.defined = true ∧ 0 ≤ er.value ∧ er.value ≤ 0xFF then .ok 2
            else .ok 3
      else .ok 3
  | .addressY =>
      if instr.zeroPageY ≠ -1 then
        match er? with
        | .error err => .error err
        | .ok er =>
            if er.defined = true ∧ 0 ≤ er.value ∧ er.value ≤ 0xFF then .ok 2
            else .ok 3
      else .ok 3
  | .indirect => .ok 3
  | .indirectX => .ok 2
  | .indirectY => .ok 2

/-- InstructionNode::pass1 records Word when the instruction size is 3
and Byte otherwise. -/
def operandSizeOf (size : Int) : DataSize :=
  if size = 3 then .word else .byte

/-- The element-counting loop of DataNode::pass1 (pass1.cpp): every
plain element counts 1; a REP element whose count is undefined or
non-positive pushes an error message and counts 0; otherwise it counts
its evaluated count.  A thrown evaluation error aborts the loop,
keeping the messages pushed so far. -/
def countElems (st : PassState) : List DataElem → PassState × Int × Option AsmError
  | [] => (st, 0, none)
  | de :: rest =>
    match de.count with
    | none =>
      match countElems st rest with
      | (st₁, n, e?) => (st₁, n + 1, e?)
    | some ce =>
      match evalE ce st.symtab st.loc with
      | .error err => (st, 0, some err)
      | .ok er =>
        if er.defined = false then
          countElems (pushMessage st false) rest
        else if er.value < 1 then
          countElems (pushMessage st false) rest
        else
          match countElems st rest with
          | (st₁, n, e?) => (st₁, er.value + n, e?)

/-- The width in bytes of one data element (pass1.cpp / pass2.cpp:
1 for Byte, 2 for Word). -/
def byteWidth (sz : DataSize) : Int :=
  match sz with
  | .byte => 1
  | .word => 2

/-- OrgNode::pass1 (pass1.cpp), after the label step: evaluate; when
the result is not fully defined push an error diagnostic and continue;
record the computed location on the node; set the location counter. -/
def orgPass1 (e : Expr) (ann : Ann) (st : PassState) :
    PassState × Ann × Option AsmError :=
  match evalE e st.symtab st.loc with
  | .error err => (st, ann, some err)
  | .ok er =>
    let st₂ := if er.defined = false then pushMessage st false else st
    let ann₁ := { ann with computedLoc := er.value }
    match setLoc st₂ er.value with
    | .error err => (st₂, ann₁, some err)
    | .ok st₃ => (st₃, ann₁, none)

/-- SetNode::pass1 (pass1.cpp), after the label step: evaluate; an
undefined result is silently skipped; otherwise set the symbol. -/
def setPass1 (symName : String) (e : Expr) (ann : Ann) (st : PassState) :
    PassState × Ann × Option AsmError :=
  match evalE e st.symtab st.loc with
  | .error err => (st, ann, some err)
  | .ok er =>
    if er.defined = false then (st, ann, none)
    else
      match st.symtab.setValue symName er.value with
      | .error err => (st, ann, some err)
      | .ok tab => ({ st with symtab := tab }, ann, none)

/-- InstructionNode::pass1 (pass1.cpp), after the label step: warn on a
parenthesized top-level operand, look up the opcode, size the
instruction (the operand is evaluated only where the sizing switch
needs it), record the operand size, and advance the location
counter. -/
def instrPass1 (map : OpcodeMap) (opname : String) (addr : Address)
    (ann : Ann) (st : PassState) : PassState × Ann × Option AsmError :=
  let st₂ := if addr.expr.isSome ∧ addr.paren = true then pushMessage st true else st
  match findInstruction map opname with
  | .error err => (st₂, ann, some err)
  | .ok instr =>
    let er? := match addr.expr with
      | some e => evalE e st₂.symtab st₂.loc
      | none => .ok { value := 1, undefinedSymbols := ∅ }
    match instrSize instr addr.mode er? with
    | .error err => (st₂, ann, some err)
    | .ok size =>
      let ann₁ := { ann with operandSize := operandSizeOf size }
      match setLoc st₂ (st₂.loc + size) with
      | .error err => (st₂, ann₁, some err)
      | .ok st₃ => (st₃, ann₁, none)

/-- DataNode::pass1 (pass1.cpp), after the label step: count the
elements (REP counts must be defined and positive) and advance the
location counter by count times width. -/
def dataPass1 (sz : DataSize) (elems : List DataElem) (ann : Ann) (st : PassState) :
    PassState × Ann × Option AsmError :=
  match countElems st elems with
  | (st₂, _, some err) => (st₂, ann, some err)
  | (st₂, n, none) =>
    match setLoc st₂ (st₂.loc + byteWidth sz * n) with
    | .error err => (st₂, ann, some err)
    | .ok st₃ => (st₃, ann, none)

/-- The pass-1 body of one statement (the per-kind pass1 methods in
pass1.cpp).  Returns the updated state, the updated node annotations
and the thrown error, if any; mutations made before a throw are kept,
as they are in the source. -/
def pass1Body (map : OpcodeMap) (s : Stmt) (ann : Ann) (st : PassState) :
    PassState × Ann × Option AsmError :=
  match pass1Label s st with
  | .error err => (st, ann, some err)
  | .ok st₁ =>
    match s.kind with
    | .noop => (st₁, ann, none)
    | .org e => orgPass1 e ann st₁
    | .set symName e => setPass1 symName e ann st₁
    | .instr opname addr => instrPass1 map opname addr ann st₁
    | .data sz elems => dataPass1 sz elems ann st₁

/-- Pass1::pass1 (pass1.cpp): for each statement set its `loc` to the
current location counter, run the statement body, and convert a thrown
error into a diagnostic with the matching severity, continuing with the
next statement. -/
def pass1 (map : OpcodeMap) : List Stmt → PassState → PassState × List Ann
  | [], st => (st, [])
  | s :: rest, st =>
    let ann : Ann := { loc := st.loc }
    match pass1Body map s ann st with
    | (st₁, ann₁, none) =>
      let (stF, anns) := pass1 map rest st₁
      (stF, ann₁ :: anns)
    | (st₁, ann₁, some err) =>
      let st₂ := pushMessage st₁ err.isWarning
      let (stF, anns) := pass1 map rest st₂
      (stF, ann₁ :: anns)

/-- Address::addressExpr() dereferenced by pass 2: the parser
guarantees that modes which evaluate an operand carry an expression, so
the default is never reached on parser-produced statements. -/
def addrOperand (addr : Address) : Expr :=
  match addr.expr with
  | some e => e
  | none => .const 0

/-- The opcode-selection block of the AddressX/AddressY case of
InstructionNode::pass2 (pass2.cpp).  For a Byte operand the matching
zero-page-indexed encoding is required.  For a Word operand the
absolute-indexed encoding is used when present; when it is missing, the
source's `(op == opcode->zeroPageX) == -1` comparison (a typo for an
assignment) can never be true, so no missing-mode error is raised and
`op` keeps the value −1; the operand is then required to be in
[−127, 255] and the operand size is downgraded to Byte. -/
def pass2IndexedOp (opcode : Opcode) (isX : Bool) (operandSize : DataSize)
    (value : Int) : Except AsmError (Int × DataSize) :=
  if operandSize = .byte then
    if isX = true then
      if opcode.zeroPageX = -1 then .error .noSuchAddressingMode
      else .ok (opcode.zeroPageX, .byte)
    else
      if opcode.zeroPageY = -1 then .error .noSuchAddressingMode
      else .ok (opcode.zeroPageY, .byte)
  else
    if isX = true then
      if opcode.absoluteX = -1 then
        if value < -127 ∨ 255 < value then .error .noAbsoluteIndexedMode
        else .ok (-1, .byte)
      else .ok (opcode.absoluteX, .word)
    else
      if opcode.absoluteY = -1 then
        if value < -127 ∨ 255 < value then .error .noAbsoluteIndexedMode
        else .ok (-1, .byte)
      else .ok (opcode.absoluteY, .word)

/-- InstructionNode::pass2 (pass2.cpp): select the concrete encoding by
addressing mode and emit the instruction bytes.  Notable details kept
from the source: the Immediate byte-range check runs after the emits
(so it only warns); the Relative range check runs before any emit; the
Address/Byte path emits the zero-page encoding (pass 1 guarantees it
exists on reachable states); the IndirectX/IndirectY path emits
`opcode.indirect` — not the indirect-indexed encoding — and performs
its zero-page range check after the emits. -/
def pass2Instr (map : OpcodeMap) (opname : String) (addr : Address)
    (ann : Ann) (st : PassState) : PassState × Ann × Option AsmError :=
  match findInstruction map opname with
  | .error err => (st, ann, some err)
  | .ok opcode =>
    match addr.mode with
    | .implied =>
      if opcode.implied = -1 then (st, ann, some .noSuchAddressingMode)
      else
        match emit st opcode.implied with
        | .error err => (st, ann, some err)
        | .ok st₁ => (st₁, ann, none)
    | .accumulator =>
      if opcode.accumulator = -1 then (st, ann, some .noSuchAddressingMode)
      else
        match emit st opcode.accumulator with
        | .error err => (st, ann, some err)
        | .ok st₁ => (st₁, ann, none)
    | .immediate =>
      if opcode.immediate = -1 then (st, ann, some .noSuchAddressingMode)
      else
        match evalCheckDefined st (addrOperand addr) with
        | .error err => (st, ann, some err)
        | .ok value =>
          let ann₁ := { ann with p2value := some value }
          match emit st opcode.immediate with
          | .error err => (st, ann₁, some err)
          | .ok st₁ =>
            match emit st₁ value with
            | .error err => (st₁, ann₁, some err)
            | .ok st₂ =>
              match checkByte value with
              | .error err => (st₂, ann₁, some err)
              | .ok _ => (st₂, ann₁, none)
    | .address =>
      match evalCheckDefined st (addrOperand addr) with
      | .error err => (st, ann, some err)
      | .ok value =>
        let ann₁ := { ann with p2value := some value }
        if opcode.relative ≠ -1 then
          let delta := value - (st.loc + 2)
          if delta < -128 ∨ 127 < delta then (st, ann₁, some .relativeBranchOutOfRange)
          else
            match emit st opcode.relative with
            | .error err => (st, ann₁, some err)
            | .ok st₁ =>
              match emit st₁ delta with
              | .error err => (st₁, ann₁, some err)
              | .ok st₂ => (st₂, ann₁, none)
        else if ann.operandSize = .byte then
          match emit st opcode.zeroPage with
          | .error err => (st, ann₁, some err)
          | .ok st₁ =>
            match emit st₁ value with
            | .error err => (st₁, ann₁, some err)
            | .ok st₂ => (st₂, ann₁, none)
        else
          match emit st opcode.absolute with
          | .error err => (st, ann₁, some err)
          | .ok st₁ =>
            match emit st₁ (value % 256) with
            | .error err => (st₁, ann₁, some err)
            | .ok st₂ =>
              match emit st₂ (shiftR8 value) with
              | .error err => (st₂, ann₁, some err)
              | .ok st₃ => (st₃, ann₁, none)
    | .addressX =>
      match evalCheckDefined st (addrOperand addr) with
      | .error err => (st, ann, some err)
      | .ok value =>
        match pass2IndexedOp opcode true ann.operandSize value with
        | .error err => (st, { ann with p2value := some value }, some err)
        | .ok (op, newSize) =>
          let ann₁ := { ann with p2value := some value, operandSize := newSize }
          match emit st op with
          | .error err => (st, ann₁, some err)
          | .ok st₁ =>
            match emit st₁ (value % 256) with
            | .error err => (st₁, ann₁, some err)
            | .ok st₂ =>
              if newSize = .word then
                match emit st₂ (shiftR8 value) with
                | .error err => (st₂, ann₁, some err)
                | .ok st₃ => (st₃, ann₁, none)
              else (st₂, ann₁, none)
    | .addressY =>
      match evalCheckDefined st (addrOperand addr) with
      | .error err => (st, ann, some err)
      | .ok value =>
        match pass2IndexedOp opcode false ann.operandSize value with
        | .error err => (st, { ann with p2value := some value }, some err)
        | .ok (op, newSize) =>
          let ann₁ := { ann with p2value := some value, operandSize := newSize }
          match emit st op with
          | .error err => (st, ann₁, some err)
          | .ok st₁ =>
            match emit st₁ (value % 256) with
            | .error err => (st₁, ann₁, some err)
            | .ok st₂ =>
              if newSize = .word then
                match emit st₂ (shiftR8 value) with
                | .error err => (st₂, ann₁, some err)
                | .ok st₃ => (st₃, ann₁, none)
              else (st₂, ann₁, none)
    | .indirect =>
      if opcode.indirect = -1 then (st, ann, some .noSuchAddressingMode)
      else
        match evalCheckDefined st (addrOperand addr) with
        | .error err => (st, ann, some err)
        | .ok value =>
          let ann₁ := { ann with p2value := some value }
          match emit st opcode.indirect with
          | .error err => (st, ann₁, some err)
          | .ok st₁ =>
            match emit st₁ (value % 256) with
            | .error err => (st₁, ann₁, some err)
            | .ok st₂ =>
              match emit st₂ (shiftR8 value) with
              | .error err => (st₂, ann₁, some err)
              | .ok st₃ => (st₃, ann₁, none)
    | .indirectX =>
      if opcode.indirectX = -1 then (st, ann, some .noSuchAddressingMode)
      else
        match evalCheckDefined st (addrOperand addr) with
        | .error err => (st, ann, some err)
        | .ok value =>
          let ann₁ := { ann with p2value := some value }
          match emit st opcode.indirect with
          | .error err => (st, ann₁, some err)
          | .ok st₁ =>
            match emit st₁ (value % 256) with
            | .error err => (st₁, ann₁, some err)
            | .ok st₂ =>
              if value < 0 ∨ 0xFF < value then (st₂, ann₁, some .addressNotZeroPage)
              else (st₂, ann₁, none)
    | .indirectY =>
      if opcode.indirectY = -1 then (st, ann, some .noSuchAddressingMode)
      else
        match evalCheckDefined st (addrOperand addr) with
        | .error err => (st, ann, some err)
        | .ok value =>
          let ann₁ := { ann with p2value := some value }
          match emit st opcode.indirect with
          | .error err => (st, ann₁, some err)
          | .ok st₁ =>
            match emit st₁ (value % 256) with
            | .error err => (st₁, ann₁, some err)
            | .ok st₂ =>
              if value < 0 ∨ 0xFF < value then (st₂, ann₁, some .addressNotZeroPage)
              else (st₂, ann₁, none)

/-- Emit one data value: the low byte, then for Word the high byte
(DataNode::pass2 emission of a single element). -/
def emitOne (sz : DataSize) (v : Int) (st : PassState) : PassState × Option AsmError :=
  match emit st (v % 256) with
  | .error err => (st, some err)
  | .ok st₁ =>
    match sz with
    | .byte => (st₁, none)
    | .word =>
      match emit st₁ (shiftR8 v) with
      | .error err => (st₁, some err)
      | .ok st₂ => (st₂, none)

/-- Emit one data value a given number of times. -/
def emitRep (sz : DataSize) (v : Int) : Nat → PassState → PassState × Option AsmError
  | 0, st => (st, none)
  | n + 1, st =>
    match emitOne sz v st with
    | (st₁, some err) => (st₁, some err)
    | (st₁, none) => emitRep sz v n st₁

/-- Modelled from the spec: the REP-aware body of DataNode::pass2 is
missing from this snapshot (the parser, pass 1 and the listing handle
DataElement REP counts, but the included pass2.cpp predates them), so
this follows §4.5 of the specification: for each element evaluate with
definedness required; for Rep(count, value) evaluate both and emit the
value count times; for Byte size emit the low byte and checkByte the
value (after the emits, matching the surviving non-REP source code);
for Word size emit low byte then high byte. -/
def pass2DataElems (sz : DataSize) : List DataElem → PassState → PassState × Option AsmError
  | [], st => (st, none)
  | de :: rest, st =>
    let count? : Except AsmError Int :=
      match de.count with
      | none => .ok 1
      | some ce => evalCheckDefined st ce
    match count? with
    | .error err => (st, some err)
    | .ok c =>
      match evalCheckDefined st de.value with
      | .error err => (st, some err)
      | .ok v =>
        match emitRep sz v c.toNat st with
        | (st₁, some err) => (st₁, some err)
        | (st₁, none) =>
          match (match sz with | .byte => checkByte v | .word => .ok ()) with
          | .error err => (st₁, some err)
          | .ok _ => pass2DataElems sz rest st₁

/-- OrgNode::pass2 (pass2.cpp): evaluate with definedness required;
throw OrgChanged when the value differs from pass 1's; set the location
counter to the pass-1 value. -/
def orgPass2 (e : Expr) (ann : Ann) (st : PassState) :
    PassState × Ann × Option AsmError :=
  match evalCheckDefined st e with
  | .error err => (st, ann, some err)
  | .ok value =>
    if value ≠ ann.computedLoc then (st, ann, some .orgChanged)
    else
      match setLoc st ann.computedLoc with
      | .error err => (st, ann, some err)
      | .ok st₁ => (st₁, ann, none)

/-- SetNode::pass2 (pass2.cpp): evaluate with definedness required and
set the symbol (the symbol table rejects a changed value). -/
def setPass2 (symName : String) (e : Expr) (ann : Ann) (st : PassState) :
    PassState × Ann × Option AsmError :=
  match evalCheckDefined st e with
  | .error err => (st, ann, some err)
  | .ok value =>
    match st.symtab.setValue symName value with
    | .error err => (st, ann, some err)
    | .ok tab => ({ st with symtab := tab }, ann, none)

/-- The data statement in pass 2 (see pass2DataElems). -/
def dataPass2 (sz : DataSize) (elems : List DataElem) (ann : Ann) (st : PassState) :
    PassState × Ann × Option AsmError :=
  match pass2DataElems sz elems st with
  | (st₁, some err) => (st₁, ann, some err)
  | (st₁, none) => (st₁, ann, none)

/-- The pass-2 body of one statement (the per-kind pass2 methods in
pass2.cpp, with DataNode::pass2 modelled from the spec as noted on
pass2DataElems). -/
def pass2Body (map : OpcodeMap) (s : Stmt) (ann : Ann) (st : PassState) :
    PassState × Ann × Option AsmError :=
  match s.kind with
  | .noop => (st, ann, none)
  | .org e => orgPass2 e ann st
  | .set symName e => setPass2 symName e ann st
  | .instr opname addr => pass2Instr map opname addr ann st
  | .data sz elems => dataPass2 sz elems ann st

/-- The statement loop of Pass2::pass2 (pass2.cpp): run each statement
body; on success record `next_loc` from the advanced location counter;
a thrown error becomes a diagnostic and the loop continues. -/
def pass2Run (map : OpcodeMap) : List Stmt → List Ann → PassState → PassState × List Ann
  | [], _, st => (st, [])
  | _ :: _, [], st => (st, [])
  | s :: rest, ann :: arest, st =>
    match pass2Body map s ann st with
    | (st₁, ann₁, none) =>
      let ann₂ := { ann₁ with nextLoc := some st₁.loc }
      let (stF, annsF) := pass2Run map rest arest st₁
      (stF, ann₂ :: annsF)
    | (st₁, ann₁, some err) =>
      let st₂ := pushMessage st₁ err.isWarning
      let (stF, annsF) := pass2Run map rest arest st₂
      (stF, ann₁ :: annsF)

/-- The outcome of a run: the pass-1 state, the pass-2 state when pass 2
ran (none when it was gated off), and the final statement
annotations. -/
structure AsmResult where
  pass1State : PassState
  pass2State : Option PassState
  anns : List Ann

/-- Assembler::assemble (assembler.cpp): run pass 1 from a fresh state;
run pass 2 — which resets the location counter to 0 and fills the image
with the −1 sentinel — exactly when pass 1 recorded no error-severity
diagnostics. -/
def assemble (map : OpcodeMap) (prog : List Stmt) : AsmResult :=
  let p1 := pass1 map prog {}
  if errorCount p1.1 = 0 then
    let start : PassState :=
      { symtab := p1.1.symtab, loc := 0, messages := [], image := fun _ => -1 }
    let p2 := pass2Run map prog p1.2 start
    { pass1State := p1.1, pass2State := some p2.1, anns := p2.2 }
  else
    { pass1State := p1.1, pass2State := none, anns := p1.2 }

/-- The BNE entry of makeOpcodeMap (opcodes.cpp): Relative 0xD0 only. -/
def BNEop : Opcode := { relative := 0xD0 }

/-- The LDA entry of makeOpcodeMap (opcodes.cpp). -/
def LDAop : Opcode :=
  { immediate := 0xA9, zeroPage := 0xA5, zeroPageX := 0xB5, absolute := 0xAD,
    absoluteX := 0xBD, absoluteY := 0xB9, indirectX := 0xA1, indirectY := 0xB1 }

/-- The NOP entry of makeOpcodeMap (opcodes.cpp), including the
undocumented NOP encodings. -/
def NOPop : Opcode :=
  { implied := 0xEA, immediate := 0x80, zeroPage := 0x04, zeroPageX := 0x14,
    absolute := 0x0C, absoluteX := 0x1C }

/-- The SEI entry of makeOpcodeMap (opcodes.cpp). -/
def SEIop : Opcode := { implied := 0x78 }

/-- The STX entry of makeOpcodeMap (opcodes.cpp): note it has a
ZeroPageY encoding but no AbsoluteY encoding. -/
def STXop : Opcode := { zeroPage := 0x86, zeroPageY := 0x96, absolute := 0x8E }

/-- The fragment of the opcode table needed by the concrete programs
below. -/
def opcodeMap : OpcodeMap :=
  [("BNE", BNEop), ("LDA", LDAop), ("NOP", NOPop), ("SEI", SEIop), ("STX", STXop)]

/-- Scenario S4 of the specification: ORG $3000; TOP: NOP; BNE TOP. -/
def progS4 : List Stmt :=
  [ { kind := .org (.const 0x3000) },
    { label := "TOP", kind := .instr "NOP" { mode := .implied } },
    { kind := .instr "BNE" { mode := .address, expr := some (.sym "TOP") } } ]

/-- Two ORG statements where the second moves the location counter
backward. -/
def progOrgBack : List Stmt :=
  [ { kind := .org (.const 0x10) },
    { kind := .org (.const 0x5) } ]

/-- An ORG whose expression uses an undefined symbol: pass 1 records an
error diagnostic. -/
def progP1Err : List Stmt :=
  [ { kind := .org (.sym "Q") } ]

/-- A BNE written with an ,X-indexed operand: an AddressX statement
whose opcode has a Relative encoding. -/
def progBNEX : List Stmt :=
  [ { kind := .instr "BNE" { mode := .addressX, expr := some (.const 0x10) } } ]

/-- A pass state with location counter 0xFFFF (everything else fresh). -/
def stFFFF : PassState := { loc := 0xFFFF }

/-- A fresh pass state. -/
def stZero : PassState := {}

/-- A pass state with location counter 0x3001. -/
def st3001 : PassState := { loc := 0x3001 }

/-- A pass state with location counter 0x5000. -/
def st5000 : PassState := { loc := 0x5000 }

/-- Data elements of scenario S6's REP line: REP(3) $FF, then $02. -/
def elemsS6 : List DataElem :=
  [ { count := some (.const 3), value := .const 0xFF },
    { value := .const 0x02 } ]

/-- A pass state with location counter 0x10. -/
def st0x10 : PassState := { loc := 0x10 }

/-- Data elements of BYTE 1, REP(.) $FF: a REP count that reads the
location counter. -/
def elemsDot : List DataElem :=
  [ { value := .const 1 },
    { count := some .location, value := .const 0xFF } ]

/-- The annotations progS4's first statement (ORG $3000) ends up with
after both passes. -/
def annS4 : Ann := { loc := 0, computedLoc := 0x3000, nextLoc := some 0x3000 }

/-- An expression that never reads the location counter. -/
def locFree : Expr → Bool
  | .const _ => true
  | .sym _ => true
  | .location => false
  | .unary _ e => locFree e
  | .binary _ l r => locFree l && locFree r

/-! Helper lemmas (shared; not tied to any single claim). -/

theorem tabFind_store_self (tab : SymbolTable) (u : String) (s : Symbol) :
    tabFind (tabStore tab u s) u = some s := by
  induction tab with
  | nil => simp [tabStore, tabFind]
  | cons p rest ih =>
    obtain ⟨k, s₀⟩ := p
    by_cases h : k = u <;> simp [tabStore, tabFind, h, ih]

theorem emit_error_overflow {st : PassState} {b : Int} {err : AsmError}
    (h : emit st b = .error err) : err = .addressOverflow := by
  unfold emit at h
  split at h
  · exact (Except.error.injEq _ _).mp h.symm
  · exact absurd h (by simp)

theorem emit_ok_spec (st : PassState) (b : Int) (h₀ : 0 ≤ st.loc) (h₁ : st.loc < 0xFFFF) :
    emit st b =
      .ok { st with
            image := fun a => if a = st.loc then b % 256 else st.image a,
            loc := st.loc + 1 } := by
  unfold emit
  rw [if_neg (by omega)]

theorem emit_ok_fields {st st' : PassState} {b : Int} (h : emit st b = .ok st') :
    st'.loc = st.loc + 1 ∧ 0 ≤ st.loc ∧ st.loc < 0xFFFF ∧
    st'.symtab = st.symtab ∧ st'.messages = st.messages := by
  unfold emit at h
  split at h
  · exact absurd h (by simp)
  · next hc =>
    obtain rfl := (Except.ok.injEq _ _).mp h
    refine ⟨rfl, by omega, by omega, rfl, rfl⟩

theorem emit_locOK {st st' : PassState} {b : Int} (h : emit st b = .ok st') :
    0 ≤ st'.loc ∧ st'.loc ≤ 65536 := by
  obtain ⟨h1, h2, h3, -⟩ := emit_ok_fields h
  omega

theorem setLoc_locOK {st st' : PassState} {l : Int} (h : setLoc st l = .ok st') :
    0 ≤ st'.loc ∧ st'.loc ≤ 65536 := by
  unfold setLoc at h
  split at h
  · exact absurd h (by simp)
  · split at h
    · exact absurd h (by simp)
    · next hc hc' =>
      obtain rfl := (Except.ok.injEq _ _).mp h
      refine ⟨show (0:Int) ≤ l by omega, show l ≤ 65536 by omega⟩

theorem setLoc_fields {st st' : PassState} {l : Int} (h : setLoc st l = .ok st') :
    st'.loc = l ∧ st'.symtab = st.symtab ∧ st'.messages = st.messages := by
  unfold setLoc at h
  split at h
  · exact absurd h (by simp)
  · split at h
    · exact absurd h (by simp)
    · obtain rfl := (Except.ok.injEq _ _).mp h
      exact ⟨rfl, rfl, rfl⟩

theorem pushMessage_loc (st : PassState) (w : Bool) :
    (pushMessage st w).loc = st.loc := rfl

theorem pushMessage_symtab (st : PassState) (w : Bool) :
    (pushMessage st w).symtab = st.symtab := rfl

theorem pass1Label_fields {s : Stmt} {st st' : PassState}
    (h : pass1Label s st = .ok st') : st'.loc = st.loc ∧ st'.messages = st.messages := by
  unfold pass1Label at h
  split at h
  · obtain rfl := (Except.ok.injEq _ _).mp h
    exact ⟨rfl, rfl⟩
  · split at h
    · exact absurd h (by simp)
    · obtain rfl := (Except.ok.injEq _ _).mp h
      exact ⟨rfl, rfl⟩

theorem emitOne_ok_fields {sz : DataSize} {v : Int} {st st' : PassState}
    (h : emitOne sz v st = (st', none)) :
    st'.loc = st.loc + byteWidth sz ∧ st'.symtab = st.symtab ∧
    st'.messages = st.messages := by
  unfold emitOne at h
  split at h
  · exact absurd ((Prod.mk.injEq _ _ _ _).mp h).2 (by simp)
  · next st₁ hemit =>
    obtain ⟨f1, -, -, f2, f3⟩ := emit_ok_fields hemit
    match sz with
    | .byte =>
      simp only at h
      obtain ⟨rfl, -⟩ := (Prod.mk.injEq _ _ _ _).mp h
      exact ⟨by rw [f1]; rfl, f2, f3⟩
    | .word =>
      simp only at h
      split at h
      · exact absurd ((Prod.mk.injEq _ _ _ _).mp h).2 (by simp)
      · next st₂ hemit₂ =>
        obtain ⟨g1, -, -, g2, g3⟩ := emit_ok_fields hemit₂
        obtain ⟨rfl, -⟩ := (Prod.mk.injEq _ _ _ _).mp h
        refine ⟨by rw [g1, f1]; show st.loc + 1 + 1 = st.loc + 2; ring,
                by rw [g2, f2], by rw [g3, f3]⟩

theorem emitOne_locOK {sz : DataSize} {v : Int} {st : PassState}
    (hst : 0 ≤ st.loc ∧ st.loc ≤ 65536) :
    0 ≤ (emitOne sz v st).1.loc ∧ (emitOne sz v st).1.loc ≤ 65536 := by
  unfold emitOne
  split
  · exact hst
  · next st₁ hemit =>
    match sz with
    | .byte => exact emit_locOK hemit
    | .word =>
      simp only
      split
      · exact emit_locOK hemit
      · next st₂ hemit₂ => exact emit_locOK hemit₂

theorem emitRep_ok_fields {sz : DataSize} {v : Int} :
    ∀ (n : Nat) {st st' : PassState}, emitRep sz v n st = (st', none) →
      st'.loc = st.loc + byteWidth sz * n ∧ st'.symtab = st.symtab ∧
      st'.messages = st.messages := by
  intro n
  induction n with
  | zero =>
    intro st st' h
    obtain ⟨rfl, -⟩ := (Prod.mk.injEq _ _ _ _).mp h
    simp
  | succ k ih =>
    intro st st' h
    unfold emitRep at h
    split at h
    · exact absurd ((Prod.mk.injEq _ _ _ _).mp h).2 (by simp)
    · next st₁ hone =>
      obtain ⟨f1, f2, f3⟩ := emitOne_ok_fields hone
      obtain ⟨g1, g2, g3⟩ := ih h
      refine ⟨?_, by rw [g2, f2], by rw [g3, f3]⟩
      rw [g1, f1]
      push_cast
      ring

theorem emitRep_locOK {sz : DataSize} {v : Int} :
    ∀ (n : Nat) {st : PassState}, 0 ≤ st.loc ∧ st.loc ≤ 65536 →
      0 ≤ (emitRep sz v n st).1.loc ∧ (emitRep sz v n st).1.loc ≤ 65536 := by
  intro n
  induction n with
  | zero => intro st hst; exact hst
  | succ k ih =>
    intro st hst
    unfold emitRep
    split
    · next st₁ err heq =>
      have : st₁ = (emitOne sz v st).1 := by rw [heq]
      rw [this] at *
      exact emitOne_locOK hst
    · next st₁ heq =>
      have h₁ : st₁ = (emitOne sz v st).1 := by rw [heq]
      subst h₁
      exact ih (emitOne_locOK hst)

theorem countElems_state : ∀ (elems : List DataElem) (st : PassState),
    (countElems st elems).1.loc = st.loc ∧ (countElems st elems).1.symtab = st.symtab ∧
    st.messages.length ≤ (countElems st elems).1.messages.length := by
  intro elems
  induction elems with
  | nil => intro st; exact ⟨rfl, rfl, le_refl _⟩
  | cons de rest ih =>
    intro st
    unfold countElems
    split
    · split
      · next st₁ n e? heq =>
        have : st₁ = (countElems st rest).1 := by rw [heq]
        subst this
        exact ih st
    · next ce =>
      split
      · exact ⟨rfl, rfl, le_refl _⟩
      · next er =>
        split
        · have h := ih (pushMessage st false)
          refine ⟨h.1, h.2.1, le_trans ?_ h.2.2⟩
          simp [pushMessage]
        · split
          · have h := ih (pushMessage st false)
            refine ⟨h.1, h.2.1, le_trans ?_ h.2.2⟩
            simp [pushMessage]
          · split
            · next st₁ n e? heq =>
              have : st₁ = (countElems st rest).1 := by rw [heq]
              subst this
              exact ih st

theorem evalE_locFree {e : Expr} (h : locFree e = true) :
    ∀ (tab : SymbolTable) (l₁ l₂ : Int), evalE e tab l₁ = evalE e tab l₂ := by
  induction e with
  | const v => intro tab l₁ l₂; rfl
  | sym name => intro tab l₁ l₂; rfl
  | location => exact absurd h (by simp [locFree])
  | unary op e ih =>
    intro tab l₁ l₂
    have he : locFree e = true := h
    simp only [evalE, ih he tab l₁ l₂]
  | binary op l r ihl ihr =>
    intro tab l₁ l₂
    rw [locFree, Bool.and_eq_true] at h
    simp only [evalE, ihl h.1 tab l₁ l₂, ihr h.2 tab l₁ l₂]

theorem countElems_eq_fst {st st' : PassState} {elems : List DataElem} {n : Int}
    {e? : Option AsmError} (h : countElems st elems = (st', n, e?))
    (hst : 0 ≤ st.loc ∧ st.loc ≤ 65536) : 0 ≤ st'.loc ∧ st'.loc ≤ 65536 := by
  have h₂ : st' = (countElems st elems).1 := by rw [h]
  subst h₂
  rw [(countElems_state elems st).1]
  exact hst

theorem orgPass1_locOK (e : Expr) (ann : Ann) (st : PassState)
    (hst : 0 ≤ st.loc ∧ st.loc ≤ 65536) :
    (0 ≤ (orgPass1 e ann st).1.loc ∧ (orgPass1 e ann st).1.loc ≤ 65536) ∧
    (orgPass1 e ann st).2.1.loc = ann.loc ∧
    (orgPass1 e ann st).2.1.nextLoc = ann.nextLoc := by
  simp only [orgPass1]
  repeat' split
  all_goals refine ⟨?_, rfl, rfl⟩
  all_goals first
    | exact hst
    | simpa [pushMessage_loc] using hst
    | (rename_i h; exact setLoc_locOK h)

theorem setPass1_locOK (symName : String) (e : Expr) (ann : Ann) (st : PassState)
    (hst : 0 ≤ st.loc ∧ st.loc ≤ 65536) :
    (0 ≤ (setPass1 symName e ann st).1.loc ∧ (setPass1 symName e ann st).1.loc ≤ 65536) ∧
    (setPass1 symName e ann st).2.1.loc = ann.loc ∧
    (setPass1 symName e ann st).2.1.nextLoc = ann.nextLoc := by
  simp only [setPass1]
  repeat' split
  all_goals exact ⟨hst, rfl, rfl⟩

theorem instrPass1_locOK (map : OpcodeMap) (opname : String) (addr : Address)
    (ann : Ann) (st : PassState) (hst : 0 ≤ st.loc ∧ st.loc ≤ 65536) :
    (0 ≤ (instrPass1 map opname addr ann st).1.loc ∧
       (instrPass1 map opname addr ann st).1.loc ≤ 65536) ∧
    (instrPass1 map opname addr ann st).2.1.loc = ann.loc ∧
    (instrPass1 map opname addr ann st).2.1.nextLoc = ann.nextLoc := by
  simp only [instrPass1]
  repeat' split
  all_goals refine ⟨?_, rfl, rfl⟩
  all_goals first
    | exact hst
    | simpa [pushMessage_loc] using hst
    | (rename_i h; exact setLoc_locOK h)

theorem dataPass1_locOK (sz : DataSize) (elems : List DataElem) (ann : Ann)
    (st : PassState) (hst : 0 ≤ st.loc ∧ st.loc ≤ 65536) :
    (0 ≤ (dataPass1 sz elems ann st).1.loc ∧ (dataPass1 sz elems ann st).1.loc ≤ 65536) ∧
    (dataPass1 sz elems ann st).2.1.loc = ann.loc ∧
    (dataPass1 sz elems ann st).2.1.nextLoc = ann.nextLoc := by
  simp only [dataPass1]
  split
  · next st₂ n err heq => exact ⟨countElems_eq_fst heq hst, rfl, rfl⟩
  · next st₂ n heq =>
    split
    · exact ⟨countElems_eq_fst heq hst, rfl, rfl⟩
    · next st₃ hset => exact ⟨setLoc_locOK hset, rfl, rfl⟩

theorem pass1Body_locOK (map : OpcodeMap) (s : Stmt) (ann : Ann) (st : PassState)
    (hst : 0 ≤ st.loc ∧ st.loc ≤ 65536) :
    (0 ≤ (pass1Body map s ann st).1.loc ∧ (pass1Body map s ann st).1.loc ≤ 65536) ∧
    (pass1Body map s ann st).2.1.loc = ann.loc ∧
    (pass1Body map s ann st).2.1.nextLoc = ann.nextLoc := by
  simp only [pass1Body]
  split
  · exact ⟨hst, rfl, rfl⟩
  · next st₁ hlabel =>
    have hst₁ : 0 ≤ st₁.loc ∧ st₁.loc ≤ 65536 := by
      rw [(pass1Label_fields hlabel).1]; exact hst
    split
    · exact ⟨hst₁, rfl, rfl⟩
    · exact orgPass1_locOK _ ann st₁ hst₁
    · exact setPass1_locOK _ _ ann st₁ hst₁
    · exact instrPass1_locOK map _ _ ann st₁ hst₁
    · exact dataPass1_locOK _ _ ann st₁ hst₁

theorem pushMessage_locOK {st : PassState} {w : Bool}
    (hst : 0 ≤ st.loc ∧ st.loc ≤ 65536) :
    0 ≤ (pushMessage st w).loc ∧ (pushMessage st w).loc ≤ 65536 := by
  simpa [pushMessage_loc] using hst

theorem emitRep_eq_fst {sz : DataSize} {v : Int} {n : Nat} {st st' : PassState}
    {e? : Option AsmError} (h : emitRep sz v n st = (st', e?))
    (hst : 0 ≤ st.loc ∧ st.loc ≤ 65536) : 0 ≤ st'.loc ∧ st'.loc ≤ 65536 := by
  have h₂ : st' = (emitRep sz v n st).1 := by rw [h]
  subst h₂
  exact emitRep_locOK n hst

theorem pass2DataElems_locOK (sz : DataSize) :
    ∀ (elems : List DataElem) (st : PassState), 0 ≤ st.loc ∧ st.loc ≤ 65536 →
      0 ≤ (pass2DataElems sz elems st).1.loc ∧ (pass2DataElems sz elems st).1.loc ≤ 65536 := by
  intro elems
  induction elems with
  | nil => intro st hst; exact hst
  | cons de rest ih =>
    intro st hst
    simp only [pass2DataElems]
    repeat' split
    all_goals solve_by_elim [emitRep_eq_fst, ih]

theorem orgPass2_locOK (e : Expr) (ann : Ann) (st : PassState)
    (hst : 0 ≤ st.loc ∧ st.loc ≤ 65536) :
    (0 ≤ (orgPass2 e ann st).1.loc ∧ (orgPass2 e ann st).1.loc ≤ 65536) ∧
    (orgPass2 e ann st).2.1.loc = ann.loc ∧
    (orgPass2 e ann st).2.1.nextLoc = ann.nextLoc := by
  simp only [orgPass2]
  repeat' split
  all_goals refine ⟨?_, rfl, rfl⟩
  all_goals solve_by_elim [setLoc_locOK]

theorem setPass2_locOK (symName : String) (e : Expr) (ann : Ann) (st : PassState)
    (hst : 0 ≤ st.loc ∧ st.loc ≤ 65536) :
    (0 ≤ (setPass2 symName e ann st).1.loc ∧ (setPass2 symName e ann st).1.loc ≤ 65536) ∧
    (setPass2 symName e ann st).2.1.loc = ann.loc ∧
    (setPass2 symName e ann st).2.1.nextLoc = ann.nextLoc := by
  simp only [setPass2]
  repeat' split
  all_goals exact ⟨hst, rfl, rfl⟩

theorem dataPass2_locOK (sz : DataSize) (elems : List DataElem) (ann : Ann)
    (st : PassState) (hst : 0 ≤ st.loc ∧ st.loc ≤ 65536) :
    (0 ≤ (dataPass2 sz elems ann st).1.loc ∧ (dataPass2 sz elems ann st).1.loc ≤ 65536) ∧
    (dataPass2 sz elems ann st).2.1.loc = ann.loc ∧
    (dataPass2 sz elems ann st).2.1.nextLoc = ann.nextLoc := by
  simp only [dataPass2]
  split
  · next st₁ err heq =>
    refine ⟨?_, rfl, rfl⟩
    have h₂ : st₁ = (pass2DataElems sz elems st).1 := by rw [heq]
    subst h₂
    exact pass2DataElems_locOK sz elems st hst
  · next st₁ heq =>
    refine ⟨?_, rfl, rfl⟩
    have h₂ : st₁ = (pass2DataElems sz elems st).1 := by rw [heq]
    subst h₂
    exact pass2DataElems_locOK sz elems st hst

theorem pass2Instr_locOK (map : OpcodeMap) (opname : String) (addr : Address)
    (ann : Ann) (st : PassState) (hst : 0 ≤ st.loc ∧ st.loc ≤ 65536) :
    (0 ≤ (pass2Instr map opname addr ann st).1.loc ∧
       (pass2Instr map opname addr ann st).1.loc ≤ 65536) ∧
    (pass2Instr map opname addr ann st).2.1.loc = ann.loc ∧
    (pass2Instr map opname addr ann st).2.1.nextLoc = ann.nextLoc := by
  simp only [pass2Instr]
  repeat' split
  all_goals refine ⟨?_, rfl, rfl⟩
  all_goals solve_by_elim [emit_locOK]

theorem pass2Body_locOK (map : OpcodeMap) (s : Stmt) (ann : Ann) (st : PassState)
    (hst : 0 ≤ st.loc ∧ st.loc ≤ 65536) :
    (0 ≤ (pass2Body map s ann st).1.loc ∧ (pass2Body map s ann st).1.loc ≤ 65536) ∧
    (pass2Body map s ann st).2.1.loc = ann.loc ∧
    (pass2Body map s ann st).2.1.nextLoc = ann.nextLoc := by
  simp only [pass2Body]
  split
  · exact ⟨hst, rfl, rfl⟩
  · exact orgPass2_locOK _ ann st hst
  · exact setPass2_locOK _ _ ann st hst
  · exact pass2Instr_locOK map _ _ ann st hst
  · exact dataPass2_locOK _ _ ann st hst

theorem pass1_anns (map : OpcodeMap) :
    ∀ (stmts : List Stmt) (st : PassState), 0 ≤ st.loc ∧ st.loc ≤ 65536 →
      (0 ≤ (pass1 map stmts st).1.loc ∧ (pass1 map stmts st).1.loc ≤ 65536) ∧
      ∀ a ∈ (pass1 map stmts st).2, (0 ≤ a.loc ∧ a.loc ≤ 65536) ∧ a.nextLoc = none := by
  intro stmts
  induction stmts with
  | nil => intro st hst; exact ⟨hst, by simp [pass1]⟩
  | cons s rest ih =>
    intro st hst
    have hbody := pass1Body_locOK map s { loc := st.loc } st hst
    simp only [pass1]
    split
    · next st₁ ann₁ heq =>
      have e1 : st₁ = (pass1Body map s { loc := st.loc } st).1 := by rw [heq]
      have e2 : ann₁ = (pass1Body map s { loc := st.loc } st).2.1 := by rw [heq]
      have hst₁ : 0 ≤ st₁.loc ∧ st₁.loc ≤ 65536 := by rw [e1]; exact hbody.1
      have hih := ih st₁ hst₁
      refine ⟨hih.1, ?_⟩
      intro a ha
      rcases List.mem_cons.mp ha with rfl | ha
      · refine ⟨?_, ?_⟩
        · rw [e2, hbody.2.1]; exact hst
        · rw [e2, hbody.2.2]
      · exact hih.2 a ha
    · next st₁ ann₁ err heq =>
      have e1 : st₁ = (pass1Body map s { loc := st.loc } st).1 := by rw [heq]
      have e2 : ann₁ = (pass1Body map s { loc := st.loc } st).2.1 := by rw [heq]
      have hst₁ : 0 ≤ st₁.loc ∧ st₁.loc ≤ 65536 := by rw [e1]; exact hbody.1
      have hih := ih (pushMessage st₁ err.isWarning) (pushMessage_locOK hst₁)
      refine ⟨hih.1, ?_⟩
      intro a ha
      rcases List.mem_cons.mp ha with rfl | ha
      · refine ⟨?_, ?_⟩
        · rw [e2, hbody.2.1]; exact hst
        · rw [e2, hbody.2.2]
      · exact hih.2 a ha

theorem pass2Run_anns (map : OpcodeMap) :
    ∀ (stmts : List Stmt) (anns : List Ann) (st : PassState),
      0 ≤ st.loc ∧ st.loc ≤ 65536 →
      (∀ a ∈ anns, (0 ≤ a.loc ∧ a.loc ≤ 65536) ∧
         (∀ n, a.nextLoc = some n → 0 ≤ n ∧ n ≤ 65536)) →
      ∀ a ∈ (pass2Run map stmts anns st).2,
        (0 ≤ a.loc ∧ a.loc ≤ 65536) ∧ (∀ n, a.nextLoc = some n → 0 ≤ n ∧ n ≤ 65536) := by
  intro stmts
  induction stmts with
  | nil =>
    intro anns st hst hanns a ha
    simp [pass2Run] at ha
  | cons s rest ih =>
    intro anns st hst hanns
    match anns with
    | [] =>
      intro a ha
      simp [pass2Run] at ha
    | ann :: arest =>
      have hann := hanns ann (List.mem_cons_self ann arest)
      have harest : ∀ a ∈ arest, (0 ≤ a.loc ∧ a.loc ≤ 65536) ∧
          (∀ n, a.nextLoc = some n → 0 ≤ n ∧ n ≤ 65536) :=
        fun a ha => hanns a (List.mem_cons_of_mem ann ha)
      have hbody := pass2Body_locOK map s ann st hst
      simp only [pass2Run]
      split
      · next st₁ ann₁ heq =>
        have e1 : st₁ = (pass2Body map s ann st).1 := by rw [heq]
        have e2 : ann₁ = (pass2Body map s ann st).2.1 := by rw [heq]
        have hst₁ : 0 ≤ st₁.loc ∧ st₁.loc ≤ 65536 := by rw [e1]; exact hbody.1
        have hih := ih arest st₁ hst₁ harest
        intro a ha
        rcases List.mem_cons.mp ha with rfl | ha
        · refine ⟨?_, ?_⟩
          · show 0 ≤ ann₁.loc ∧ ann₁.loc ≤ 65536
            rw [e2, hbody.2.1]
            exact hann.1
          · intro n hn
            have hn₂ : st₁.loc = n := Option.some.inj hn
            rw [← hn₂]
            exact hst₁
        · exact hih a ha
      · next st₁ ann₁ err heq =>
        have e1 : st₁ = (pass2Body map s ann st).1 := by rw [heq]
        have e2 : ann₁ = (pass2Body map s ann st).2.1 := by rw [heq]
        have hst₁ : 0 ≤ st₁.loc ∧ st₁.loc ≤ 65536 := by rw [e1]; exact hbody.1
        have hih := ih arest (pushMessage st₁ err.isWarning) (pushMessage_locOK hst₁) harest
        intro a ha
        rcases List.mem_cons.mp ha with rfl | ha
        · refine ⟨?_, ?_⟩
          · rw [e2, hbody.2.1]
            exact hann.1
          · intro n hn
            rw [e2, hbody.2.2] at hn
            exact hann.2 n hn
        · exact hih a ha

/-- C7 (amended): REP data emission.  For a Data statement whose
elements pass the pass-1 count checks silently (countElems returns
with no new diagnostics and no thrown error), whose REP count
expressions do not read the location counter, and whose pass-2
emission succeeds under the same symbol table, the pass-2 location
counter advances by exactly the pass-1 element count times the element
width — i.e. the statement writes exactly that many bytes, each emit
writing one byte.  The count proviso is forced: pass 1 evaluates all
counts at the statement start while pass 2 re-evaluates them
mid-emission, so a count reading the location counter can diverge (see
the counterexample). -/
theorem C7_theorem (sz : DataSize) :
    ∀ (elems : List DataElem) (st0 st st' : PassState) (n : Int),
      st.symtab = st0.symtab →
      (∀ de ∈ elems, de.count.all locFree = true) →
      countElems st0 elems = (st0, n, none) →
      pass2DataElems sz elems st = (st', none) →
      st'.loc = st.loc + byteWidth sz * n := by
  intro elems
  induction elems with
  | nil =>
    intro st0 st st' n hsym hlf h1 h2
    simp only [countElems] at h1
    simp only [pass2DataElems] at h2
    have hn : (0 : Int) = n := by
      have := congrArg (fun p => p.2.1) h1
      simpa using this
    have hst' : st = st' := congrArg Prod.fst h2
    subst hst'
    rw [← hn]
    simp
  | cons de rest ih =>
    intro st0 st st' n hsym hlf h1 h2
    obtain ⟨dcount, dvalue⟩ := de
    have hlfrest : ∀ d ∈ rest, d.count.all locFree = true :=
      fun d hd => hlf d (List.mem_cons_of_mem _ hd)
    cases dcount with
    | none =>
      simp only [countElems] at h1
      rcases hrec : countElems st0 rest with ⟨st₁, n₁, e?⟩
      rw [hrec] at h1
      have hst₁ : st₁ = st0 := congrArg Prod.fst h1
      have hn₁ : n₁ + 1 = n := by
        have := congrArg (fun p => p.2.1) h1
        simpa using this
      have he? : e? = none := by
        have := congrArg (fun p => p.2.2) h1
        simpa using this
      rw [hst₁, he?] at hrec
      simp only [pass2DataElems] at h2
      rcases hvv : evalCheckDefined st dvalue with err | v <;> rw [hvv] at h2 <;>
        simp only [] at h2
      · exact absurd (congrArg Prod.snd h2) (by simp)
      · rcases her : emitRep sz v (Int.toNat 1) st with ⟨st₂, e₂⟩
        rw [her] at h2
        cases e₂ with
        | some err =>
          simp only [] at h2
          exact absurd (congrArg Prod.snd h2) (by simp)
        | none =>
          obtain ⟨hloc₂, hsym₂, -⟩ := emitRep_ok_fields (Int.toNat 1) her
          cases sz with
          | byte =>
            simp only [] at h2
            rcases hcb : checkByte v with err | u <;> rw [hcb] at h2 <;>
              simp only [] at h2
            · exact absurd (congrArg Prod.snd h2) (by simp)
            · have hrest := ih st0 st₂ st' n₁ (by rw [hsym₂, hsym]) hlfrest hrec h2
              have h1n : ((Int.toNat 1 : Nat) : Int) = 1 := rfl
              rw [hrest, hloc₂, h1n, ← hn₁]
              ring
          | word =>
            simp only [] at h2
            have hrest := ih st0 st₂ st' n₁ (by rw [hsym₂, hsym]) hlfrest hrec h2
            have h1n : ((Int.toNat 1 : Nat) : Int) = 1 := rfl
            rw [hrest, hloc₂, h1n, ← hn₁]
            ring
    | some ce =>
      have hlfce : locFree ce = true := by
        have := hlf ⟨some ce, dvalue⟩ (List.mem_cons_self _ _)
        simpa [Option.all] using this
      simp only [countElems] at h1
      rcases he : evalE ce st0.symtab st0.loc with err | er <;> rw [he] at h1 <;>
        simp only [] at h1
      · exact absurd (congrArg (fun p => p.2.2) h1) (by simp)
      · by_cases hd : er.defined = false
        · rw [if_pos hd] at h1
          have e1 : (countElems (pushMessage st0 false) rest).1 = st0 :=
            congrArg Prod.fst h1
          have hmono := (countElems_state rest (pushMessage st0 false)).2.2
          rw [e1] at hmono
          simp [pushMessage] at hmono
        · rw [if_neg hd] at h1
          by_cases hv1 : er.value < 1
          · rw [if_pos hv1] at h1
            have e1 : (countElems (pushMessage st0 false) rest).1 = st0 :=
              congrArg Prod.fst h1
            have hmono := (countElems_state rest (pushMessage st0 false)).2.2
            rw [e1] at hmono
            simp [pushMessage] at hmono
          · rw [if_neg hv1] at h1
            rcases hrec : countElems st0 rest with ⟨st₁, n₁, e?⟩
            rw [hrec] at h1
            have hst₁ : st₁ = st0 := congrArg Prod.fst h1
            have hn₁ : er.value + n₁ = n := by
              have := congrArg (fun p => p.2.1) h1
              simpa using this
            have he? : e? = none := by
              have := congrArg (fun p => p.2.2) h1
              simpa using this
            rw [hst₁, he?] at hrec
            have hdt : er.defined = true := by
              cases hdd : er.defined with
              | false => exact absurd hdd hd
              | true => rfl
            have hcd : evalCheckDefined st ce = .ok er.value := by
              unfold evalCheckDefined
              rw [hsym, evalE_locFree hlfce st0.symtab st.loc st0.loc, he]
              simp only []
              rw [if_pos hdt]
            simp only [pass2DataElems] at h2
            rw [hcd] at h2
            simp only [] at h2
            rcases hvv : evalCheckDefined st dvalue with err | v <;> rw [hvv] at h2 <;>
              simp only [] at h2
            · exact absurd (congrArg Prod.snd h2) (by simp)
            · rcases her : emitRep sz v (Int.toNat er.value) st with ⟨st₂, e₂⟩
              rw [her] at h2
              cases e₂ with
              | some err =>
                simp only [] at h2
                exact absurd (congrArg Prod.snd h2) (by simp)
              | none =>
                obtain ⟨hloc₂, hsym₂, -⟩ := emitRep_ok_fields (Int.toNat er.value) her
                have hcast : ((Int.toNat er.value : Nat) : Int) = er.value :=
                  Int.toNat_of_nonneg (by omega)
                cases sz with
                | byte =>
                  simp only [] at h2
                  rcases hcb : checkByte v with err | u <;> rw [hcb] at h2 <;>
                    simp only [] at h2
                  · exact absurd (congrArg Prod.snd h2) (by simp)
                  · have hrest := ih st0 st₂ st' n₁ (by rw [hsym₂, hsym]) hlfrest hrec h2
                    rw [hrest, hloc₂, hcast, ← hn₁]
                    ring
                | word =>
                  simp only [] at h2
                  have hrest := ih st0 st₂ st' n₁ (by rw [hsym₂, hsym]) hlfrest hrec h2
                  rw [hrest, hloc₂, hcast, ← hn₁]
                  ring

/-- C4: the claim says a write is allowed at every location in
[0, 0xFFFF], so emitting with the location counter at 0xFFFF should
succeed and store a byte at address 0xFFFF.  The code's guard is
`loc_ < 0 || loc_ >= 0xffff`, so the write at 0xFFFF instead throws
AddressOverflow — contradicting the emit error message, which says the
store would be outside the addressing range $0000-$FFFF. -/
theorem C4_theorem : emit stFFFF 0xEA = .error .addressOverflow := rfl

/-- C8: for LDA with IndirectX mode and operand $10, pass 2 succeeds
(the operand is in zero page) but the opcode byte written is 0xFF — the
masked −1 of the missing `indirect` encoding the code emits — instead
of the IndirectX encoding 0xA1. -/
theorem C8_theorem :
    LDAop.indirectX = 0xA1
    ∧ (pass2Instr opcodeMap "LDA"
        { mode := .indirectX, expr := some (.const 0x10) } {} stZero).2.2 = none
    ∧ (pass2Instr opcodeMap "LDA"
        { mode := .indirectX, expr := some (.const 0x10) } {} stZero).1.image 0 = 0xFF
    ∧ (pass2Instr opcodeMap "LDA"
        { mode := .indirectX, expr := some (.const 0x10) } {} stZero).1.image 1 = 0x10
    ∧ (pass2Instr opcodeMap "LDA"
        { mode := .indirectX, expr := some (.const 0x10) } {} stZero).1.loc = 2
    ∧ (0xFF : Int) ≠ 0xA1 := by
  decide

/-- C2 counterexample: BNE has a Relative encoding, yet for an AddressX
statement pass 1 sizes the instruction at 3 bytes (Word operand), not
the 1-byte operand the claim prescribes for opcodes with a Relative
encoding. -/
theorem C2_counterexample :
    BNEop.relative ≠ -1
    ∧ ((pass1 opcodeMap progBNEX {}).2.map fun a => a.operandSize) = [.word] := by
  decide

/-- C2 (amended): the pass-1 sizing rule per mode.  For Address mode a
Relative encoding wins and gives a 2-byte instruction (1-byte operand);
otherwise, and for AddressX/AddressY always — the Relative encoding is
not consulted there — the instruction is 2 bytes exactly when the
corresponding zero-page encoding exists and the operand is fully
defined with value in [0, 0xFF], else 3 bytes.  A 3-byte size is
recorded as a Word operand, otherwise Byte. -/
theorem C2_theorem (op : Opcode) (er : ExprResult) :
    instrSize op .address (.ok er) =
      .ok (if op.relative ≠ -1 then 2
           else if op.zeroPage ≠ -1 ∧ er.defined = true ∧ 0 ≤ er.value ∧ er.value ≤ 0xFF
           then 2 else 3)
    ∧ instrSize op .addressX (.ok er) =
      .ok (if op.zeroPageX ≠ -1 ∧ er.defined = true ∧ 0 ≤ er.value ∧ er.value ≤ 0xFF
           then 2 else 3)
    ∧ instrSize op .addressY (.ok er) =
      .ok (if op.zeroPageY ≠ -1 ∧ er.defined = true ∧ 0 ≤ er.value ∧ er.value ≤ 0xFF
           then 2 else 3)
    ∧ operandSizeOf 2 = .byte ∧ operandSizeOf 3 = .word := by
  refine ⟨?_, ?_, ?_, by decide, by decide⟩
  · simp only [instrSize]
    by_cases h1 : op.relative ≠ -1
    · rw [if_pos h1, if_pos h1]
    · rw [if_neg h1, if_neg h1]
      by_cases h2 : op.zeroPage ≠ -1
      · rw [if_pos h2]
        try simp only []
        by_cases h3 : er.defined = true ∧ 0 ≤ er.value ∧ er.value ≤ 0xFF
        · rw [if_pos h3, if_pos ⟨h2, h3.1, h3.2.1, h3.2.2⟩]
        · rw [if_neg h3, if_neg (fun hc => h3 ⟨hc.2.1, hc.2.2⟩)]
      · rw [if_neg h2, if_neg (fun hc => h2 hc.1)]
  · simp only [instrSize]
    by_cases h2 : op.zeroPageX ≠ -1
    · rw [if_pos h2]
      try simp only []
      by_cases h3 : er.defined = true ∧ 0 ≤ er.value ∧ er.value ≤ 0xFF
      · rw [if_pos h3, if_pos ⟨h2, h3.1, h3.2.1, h3.2.2⟩]
      · rw [if_neg h3, if_neg (fun hc => h3 ⟨hc.2.1, hc.2.2⟩)]
    · rw [if_neg h2, if_neg (fun hc => h2 hc.1)]
  · simp only [instrSize]
    by_cases h2 : op.zeroPageY ≠ -1
    · rw [if_pos h2]
      try simp only []
      by_cases h3 : er.defined = true ∧ 0 ≤ er.value ∧ er.value ≤ 0xFF
      · rw [if_pos h3, if_pos ⟨h2, h3.1, h3.2.1, h3.2.2⟩]
      · rw [if_neg h3, if_neg (fun hc => h3 ⟨hc.2.1, hc.2.2⟩)]
    · rw [if_neg h2, if_neg (fun hc => h2 hc.1)]

/-- C5: symbol-table contract.  Names are upper-cased on insert and
lookup, so after a successful setValue under one spelling, a lookup
under any spelling with the same upper-casing returns (defined=true,
value); a name with no entry looks up as the sentinel (defined=false,
value=1); and setValue throws SymbolRedefinition exactly when the
existing entry is defined with a different value. -/
theorem C5_theorem (tab tab' : SymbolTable) (n₁ n₂ : String) (v : Int)
    (hcase : toUpper n₁ = toUpper n₂) :
    (SymbolTable.setValue tab n₁ v = .ok tab' →
       SymbolTable.lookup tab' n₂ = { defined := true, value := v })
    ∧ (tabFind tab (toUpper n₂) = none →
       SymbolTable.lookup tab n₂ = { defined := false, value := 1 })
    ∧ (SymbolTable.setValue tab n₁ v = .error .symbolRedefinition ↔
       ((tab.lookup n₁).defined = true ∧ (tab.lookup n₁).value ≠ v)) := by
  refine ⟨?_, ?_, ?_⟩
  · intro h
    simp only [SymbolTable.setValue] at h
    split at h
    · exact absurd h (by simp)
    · have hstore : tabStore tab (toUpper n₁) { defined := true, value := v } = tab' :=
        (Except.ok.injEq _ _).mp h
      rw [← hstore]
      simp only [SymbolTable.lookup, SymbolTable.found]
      rw [← hcase, tabFind_store_self]
  · intro h
    simp only [SymbolTable.lookup, SymbolTable.found]
    rw [h]
  · simp only [SymbolTable.setValue, SymbolTable.lookup]
    constructor
    · intro h
      split at h
      · next hcond => exact hcond
      · exact absurd h (by simp)
    · intro hcond
      rw [if_pos hcond]

/-- C5 witness at a concrete instance: defining foo as 5 then looking
up FOO yields (defined=true, value=5). -/
theorem C5_witness :
    toUpper "foo" = toUpper "FOO"
    ∧ SymbolTable.setValue [] "foo" 5 =
        .ok [("FOO", { defined := true, value := 5 })]
    ∧ SymbolTable.lookup [("FOO", { defined := true, value := 5 })] "FOO" =
        { defined := true, value := 5 } :=
  ⟨by decide, rfl,
   (C5_theorem [] [("FOO", { defined := true, value := 5 })] "foo" "FOO" 5 (by decide)).1
     rfl⟩

/-- C6: undefined propagation in binary expressions.  When both
operands evaluate without a thrown error: if either result is
undefined, the node evaluates to an undefined result whose symbol set
is the union of the two undefined sets (and no error is raised); when
both are defined, DivideByZero is raised exactly when the operator is
division and the right value is 0. -/
theorem C6_theorem (op : Operator) (l r : Expr) (tab : SymbolTable) (lc : Int)
    (lr rr : ExprResult)
    (hl : evalE l tab lc = .ok lr) (hr : evalE r tab lc = .ok rr) :
    ((lr.defined = false ∨ rr.defined = false) →
       evalE (.binary op l r) tab lc =
         .ok { value := 1,
               undefinedSymbols := lr.undefinedSymbols ∪ rr.undefinedSymbols })
    ∧ (lr.defined = true → rr.defined = true →
       (evalE (.binary op l r) tab lc = .error .divideByZero ↔
          (op = .div ∧ rr.value = 0))) := by
  constructor
  · intro h
    simp only [evalE, hl, hr]
    rw [if_pos h]
  · intro h1 h2
    simp only [evalE, hl, hr]
    rw [if_neg (by simp [h1, h2])]
    cases op with
    | add => simp
    | sub => simp
    | mul => simp
    | div =>
      by_cases hz : rr.value = 0
      · rw [if_pos hz]
        simp [hz]
      · rw [if_neg hz]
        simp [hz]

/-- C6 witness: 1 / FOO with FOO undefined evaluates to an undefined
result carrying FOO — the division is not attempted and no error is
raised. -/
theorem C6_witness :
    evalE (.const 1) [] 0 = .ok { value := 1, undefinedSymbols := ∅ }
    ∧ evalE (.sym "FOO") [] 0 = .ok { value := 1, undefinedSymbols := {"FOO"} }
    ∧ ({ value := 1, undefinedSymbols := {"FOO"} } : ExprResult).defined = false
    ∧ evalE (.binary .div (.const 1) (.sym "FOO")) [] 0 =
        .ok { value := 1, undefinedSymbols := (∅ : Finset String) ∪ {"FOO"} } :=
  ⟨rfl, rfl, by decide,
   (C6_theorem .div (.const 1) (.sym "FOO") [] 0
      { value := 1, undefinedSymbols := ∅ }
      { value := 1, undefinedSymbols := {"FOO"} } rfl rfl).1 (Or.inr (by decide))⟩

/-- C10: pass 2 runs exactly when pass 1 recorded no error-severity
diagnostics; when pass 1 recorded an error, assemble never invokes
pass 2, so no pass-2 state exists — no byte is written and the image is
never even initialized to the −1 sentinel. -/
theorem C10_theorem (map : OpcodeMap) (prog : List Stmt) :
    (errorCount (assemble map prog).pass1State ≠ 0 →
       (assemble map prog).pass2State = none)
    ∧ ((assemble map prog).pass2State.isSome = true ↔
       errorCount (assemble map prog).pass1State = 0) := by
  simp only [assemble]
  by_cases h : errorCount (pass1 map prog {}).1 = 0
  · rw [if_pos h]
    exact ⟨fun hne => absurd h hne, by simp [h]⟩
  · rw [if_neg h]
    exact ⟨fun _ => rfl, by simp [h]⟩

/-- C10 witness: a program whose single ORG uses an undefined symbol
produces a pass-1 error, and assemble skips pass 2. -/
theorem C10_witness :
    errorCount (assemble opcodeMap progP1Err).pass1State ≠ 0
    ∧ (assemble opcodeMap progP1Err).pass2State = none :=
  ⟨by decide, (C10_theorem opcodeMap progP1Err).1 (by decide)⟩

/-- C1 counterexample: in the specification's own scenario S4
(ORG $3000; TOP: NOP; BNE TOP) pass 1 assigns the BNE statement a Byte
operand size — relative branches always do — while the pass-2
re-evaluation of the operand yields 0x3000, far outside [0, 0xFF].
The run is error-free. -/
theorem C1_counterexample :
    errorCount (assemble opcodeMap progS4).pass1State = 0
    ∧ ((assemble opcodeMap progS4).anns.map fun a => (a.operandSize, a.p2value)) =
        [(.byte, none), (.byte, none), (.byte, some 0x3000)]
    ∧ ¬ ((0x3000 : Int) ≤ 0xFF) := by
  decide

/-- C1 (amended): for an Address/AddressX/AddressY instruction whose
opcode has no Relative encoding, if pass 1 chose a Byte operand then
re-evaluating the operand in pass 2 under the same symbol table and
location counter succeeds with a value in [0, 0xFF]. -/
theorem C1_theorem (op : Opcode) (mode : AddrMode) (e : Expr) (st : PassState)
    (size : Int)
    (hmode : mode = .address ∨ mode = .addressX ∨ mode = .addressY)
    (hrel : op.relative = -1)
    (hsize : instrSize op mode (evalE e st.symtab st.loc) = .ok size)
    (hbyte : operandSizeOf size = .byte) :
    ∃ v, evalCheckDefined st e = .ok v ∧ 0 ≤ v ∧ v ≤ 0xFF := by
  rcases hmode with rfl | rfl | rfl
  · simp only [instrSize] at hsize
    rw [if_neg (fun hc => hc hrel)] at hsize
    split at hsize
    · split at hsize
      · exact absurd hsize (by simp)
      · rename_i er he
        split at hsize
        · rename_i hcond
          refine ⟨er.value, ?_, hcond.2.1, hcond.2.2⟩
          unfold evalCheckDefined
          rw [he]
          try simp only []
          rw [if_pos hcond.1]
        · obtain rfl := (Except.ok.injEq _ _).mp hsize
          simp [operandSizeOf] at hbyte
    · obtain rfl := (Except.ok.injEq _ _).mp hsize
      simp [operandSizeOf] at hbyte
  · simp only [instrSize] at hsize
    split at hsize
    · split at hsize
      · exact absurd hsize (by simp)
      · rename_i er he
        split at hsize
        · rename_i hcond
          refine ⟨er.value, ?_, hcond.2.1, hcond.2.2⟩
          unfold evalCheckDefined
          rw [he]
          try simp only []
          rw [if_pos hcond.1]
        · obtain rfl := (Except.ok.injEq _ _).mp hsize
          simp [operandSizeOf] at hbyte
    · obtain rfl := (Except.ok.injEq _ _).mp hsize
      simp [operandSizeOf] at hbyte
  · simp only [instrSize] at hsize
    split at hsize
    · split at hsize
      · exact absurd hsize (by simp)
      · rename_i er he
        split at hsize
        · rename_i hcond
          refine ⟨er.value, ?_, hcond.2.1, hcond.2.2⟩
          unfold evalCheckDefined
          rw [he]
          try simp only []
          rw [if_pos hcond.1]
        · obtain rfl := (Except.ok.injEq _ _).mp hsize
          simp [operandSizeOf] at hbyte
    · obtain rfl := (Except.ok.injEq _ _).mp hsize
      simp [operandSizeOf] at hbyte

/-- C1 witness: LDA with a constant $42 operand is sized Byte by pass 1
and re-evaluates in pass 2 to $42 ∈ [0, 0xFF]. -/
theorem C1_witness :
    ((AddrMode.address = AddrMode.address ∨ AddrMode.address = AddrMode.addressX ∨
        AddrMode.address = AddrMode.addressY)
     ∧ LDAop.relative = -1
     ∧ instrSize LDAop .address (evalE (.const 0x42) stZero.symtab stZero.loc) = .ok 2
     ∧ operandSizeOf 2 = .byte)
    ∧ ∃ v, evalCheckDefined stZero (.const 0x42) = .ok v ∧ 0 ≤ v ∧ v ≤ 0xFF :=
  ⟨⟨Or.inl rfl, rfl, rfl, rfl⟩,
   C1_theorem LDAop .address (.const 0x42) stZero 2 (Or.inl rfl) rfl rfl rfl⟩

/-- C3: relative branch emission.  With the operand evaluated to v at
pass-2 location loc, delta = v − (loc + 2); the statement fails with
RelativeBranchOutOfRange exactly when delta ∉ [−128, 127] (the check
precedes any emission); otherwise, within addressable bounds, it emits
the Relative opcode byte at loc and delta as one byte at loc + 1 and
advances the location counter by 2. -/
theorem C3_theorem (map : OpcodeMap) (opname : String) (op : Opcode) (e : Expr)
    (ann : Ann) (st : PassState) (v : Int)
    (hfind : findInstruction map opname = .ok op)
    (hrel : op.relative ≠ -1)
    (hev : evalCheckDefined st e = .ok v) :
    ((pass2Instr map opname { mode := .address, expr := some e } ann st).2.2 =
        some .relativeBranchOutOfRange
      ↔ (v - (st.loc + 2) < -128 ∨ 127 < v - (st.loc + 2)))
    ∧ (-128 ≤ v - (st.loc + 2) → v - (st.loc + 2) ≤ 127 →
        0 ≤ st.loc → st.loc + 1 < 0xFFFF →
        (pass2Instr map opname { mode := .address, expr := some e } ann st).2.2 = none
        ∧ (pass2Instr map opname { mode := .address, expr := some e } ann st).1.loc
            = st.loc + 2
        ∧ (pass2Instr map opname { mode := .address, expr := some e } ann st).1.image st.loc
            = op.relative % 256
        ∧ (pass2Instr map opname
             { mode := .address, expr := some e } ann st).1.image (st.loc + 1)
            = (v - (st.loc + 2)) % 256) := by
  simp only [pass2Instr, addrOperand, hfind, hev]
  rw [if_pos hrel]
  by_cases hδ : v - (st.loc + 2) < -128 ∨ 127 < v - (st.loc + 2)
  · rw [if_pos hδ]
    constructor
    · exact ⟨fun _ => hδ, fun _ => rfl⟩
    · intro h1 h2 _ _
      exact absurd hδ (by omega)
  · rw [if_neg hδ]
    constructor
    · refine ⟨fun hcontra => ?_, fun h => absurd h hδ⟩
      rcases hem1 : emit st op.relative with err | st₁ <;> rw [hem1] at hcontra <;>
        simp only [] at hcontra
      · rw [emit_error_overflow hem1] at hcontra
        exact absurd (Option.some.inj hcontra) (by simp)
      · rcases hem2 : emit st₁ (v - (st.loc + 2)) with err | st₂ <;>
          rw [hem2] at hcontra <;> simp only [] at hcontra
        · rw [emit_error_overflow hem2] at hcontra
          exact absurd (Option.some.inj hcontra) (by simp)
        · exact absurd hcontra (by simp)
    · intro h1 h2 h3 h4
      rw [emit_ok_spec st op.relative h3 (by omega)]
      try simp only []
      rw [emit_ok_spec _ _ (show (0:Int) ≤ st.loc + 1 by omega)
            (show st.loc + 1 < 0xFFFF by omega)]
      refine ⟨rfl, ?_, ?_, ?_⟩
      · show st.loc + 1 + 1 = st.loc + 2
        omega
      · show (if st.loc = st.loc + 1 then (v - (st.loc + 2)) % 256
              else if st.loc = st.loc then op.relative % 256 else st.image st.loc)
            = op.relative % 256
        rw [if_neg (by omega), if_pos rfl]
      · show (if st.loc + 1 = st.loc + 1 then (v - (st.loc + 2)) % 256
              else if st.loc + 1 = st.loc then op.relative % 256 else st.image (st.loc + 1))
            = (v - (st.loc + 2)) % 256
        rw [if_pos rfl]

/-- C3 witness: BNE at $3001 targeting $3000 emits 0xD0 0xFD and moves
the location counter to $3003. -/
theorem C3_witness :
    findInstruction opcodeMap "BNE" = .ok BNEop
    ∧ BNEop.relative ≠ -1
    ∧ evalCheckDefined st3001 (.const 0x3000) = .ok 0x3000
    ∧ (pass2Instr opcodeMap "BNE"
        { mode := .address, expr := some (.const 0x3000) } {} st3001).2.2 = none
    ∧ (pass2Instr opcodeMap "BNE"
        { mode := .address, expr := some (.const 0x3000) } {} st3001).1.loc
        = st3001.loc + 2
    ∧ (pass2Instr opcodeMap "BNE"
        { mode := .address, expr := some (.const 0x3000) } {} st3001).1.image st3001.loc
        = BNEop.relative % 256
    ∧ (pass2Instr opcodeMap "BNE"
        { mode := .address, expr := some (.const 0x3000) } {} st3001).1.image
          (st3001.loc + 1)
        = (0x3000 - (st3001.loc + 2)) % 256
    ∧ BNEop.relative % 256 = 0xD0
    ∧ (0x3000 - (st3001.loc + 2)) % 256 = 0xFD := by
  have h := (C3_theorem opcodeMap "BNE" BNEop (.const 0x3000) {} st3001 0x3000
    rfl (by decide) rfl).2 (by decide) (by decide) (by decide) (by decide)
  exact ⟨rfl, by decide, rfl, h.1, h.2.1, h.2.2.1, h.2.2.2, by decide, by decide⟩

/-- C7 counterexample: BYTE 1, REP(.) $FF at location $10 assembles
with no diagnostics and no error in either pass, yet pass 1 counts
17 elements (the '.' count evaluates to $10 + the leading element = 16)
while pass 2, re-evaluating '.' after the first byte has been emitted,
repeats $FF 17 times and writes 18 bytes in total — the bytes written
differ from the pass-1 element count times the element width. -/
theorem C7_counterexample :
    countElems st0x10 elemsDot = (st0x10, 17, none)
    ∧ pass2DataElems .byte elemsDot st0x10
        = ((pass2DataElems .byte elemsDot st0x10).1, none)
    ∧ (pass2DataElems .byte elemsDot st0x10).1.loc = st0x10.loc + 18
    ∧ (pass2DataElems .byte elemsDot st0x10).1.loc - st0x10.loc ≠ byteWidth .byte * 17 :=
  ⟨rfl, rfl, rfl, by decide⟩

/-- C7 witness: BYTE REP(3) $FF, $02 — pass 1 counts 4 elements, pass 2
writes exactly 4 bytes. -/
theorem C7_witness :
    st5000.symtab = st5000.symtab
    ∧ (∀ de ∈ elemsS6, de.count.all locFree = true)
    ∧ countElems st5000 elemsS6 = (st5000, 4, none)
    ∧ (pass2DataElems .byte elemsS6 st5000).1.loc = st5000.loc + byteWidth .byte * 4 :=
  ⟨rfl, by decide, rfl,
   C7_theorem .byte elemsS6 st5000 st5000 (pass2DataElems .byte elemsS6 st5000).1 4
     rfl (by decide) rfl rfl⟩

/-- C9 counterexample: two ORG statements, the second moving the
location counter backward, give the second statement loc = 0x10 and
next_loc = 0x5, violating loc ≤ next_loc; the run is error-free. -/
theorem C9_counterexample :
    ((assemble opcodeMap progOrgBack).anns.map fun a => (a.loc, a.nextLoc)) =
      [(0, some 0x10), (0x10, some 0x5)]
    ∧ ¬ ((0x10 : Int) ≤ 0x5) := by
  decide

/-- C9 (amended): after both passes every statement's loc and (when
assigned) next_loc lie in [0, 0x10000]; loc ≤ next_loc does not hold in
general because an ORG may move the location counter backward. -/
theorem C9_theorem (map : OpcodeMap) (prog : List Stmt) :
    ∀ a ∈ (assemble map prog).anns,
      (0 ≤ a.loc ∧ a.loc ≤ 0x10000) ∧
      (∀ n, a.nextLoc = some n → 0 ≤ n ∧ n ≤ 0x10000) := by
  intro a ha
  have hp1 := pass1_anns map prog {} (by exact ⟨le_refl 0, by norm_num⟩)
  simp only [assemble] at ha
  split at ha
  · refine pass2Run_anns map prog (pass1 map prog {}).2 _
      (by exact ⟨le_refl 0, by norm_num⟩) ?_ a ha
    intro a' ha'
    refine ⟨(hp1.2 a' ha').1, ?_⟩
    intro n hn
    rw [(hp1.2 a' ha').2] at hn
    exact absurd hn (by simp)
  · refine ⟨(hp1.2 a ha).1, ?_⟩
    intro n hn
    rw [(hp1.2 a ha).2] at hn
    exact absurd hn (by simp)

/-- C9 witness: the ORG $3000 statement of progS4 has loc = 0 and
next_loc = some 0x3000, both within [0, 0x10000]. -/
theorem C9_witness :
    annS4 ∈ (assemble opcodeMap progS4).anns
    ∧ annS4.nextLoc = some 0x3000
    ∧ (0 ≤ annS4.loc ∧ annS4.loc ≤ 0x10000)
    ∧ (0 ≤ (0x3000 : Int) ∧ (0x3000 : Int) ≤ 0x10000) :=
  ⟨by decide, rfl, (C9_theorem opcodeMap progS4 annS4 (by decide)).1,
   (C9_theorem opcodeMap progS4 annS4 (by decide)).2 0x3000 rfl⟩

end Yas6502
